import Mathlib

/-!
Verification of the gearsim driver compiler.

The repository contains two generations of the compiler.  The newer
pipeline (`gear_nodes.py` with `node_value.py`) contains the declarative
node graph and the depth-first topological sort `gather_expression_nodes`
— both embedded faithfully below — but cannot run as written: every
`make_driver` in `node_value.py` takes `(expression, variables, use_self)`
while every call site in `gear_nodes.py` passes keyword bindings
(`TypeError`), and `NodeContext.from_gear` (gear_nodes.py:211) is
undefined (`AttributeError`).  The run model below (`build_drivers`,
`compile_anchor`) surfaces these exceptions exactly where the source
raises them.  The older pipeline (`gear_drivers.py` with
`pose_driver_utils.py`) works, and is embedded where it decides a claim:
the run-global `"Node{index}_"` scope assignment, the length-guarded
driver emission `make_idprop_driver`, the unconditional const-rotation
rule, the frame-timing rules of its `setup_armature`, and
`PropertyNamespace.add_idprop`.  Numeric driver expressions are modelled
exactly over `ℚ`, with the float value of `math.pi` kept as a symbolic
positive parameter `piv`; where the spec specifies behavior whose
implementation is missing from `src/` (the placeholder-resolving
`make_driver` of spec section 4.5, the host's dependency-ordered
evaluator of sections 5-6), the definition says so in its doc comment
and is modelled from the spec's words.
-/

/-- Decidable equality of compilation results. -/
instance instDecEqExcept {ε α : Type} [DecidableEq ε] [DecidableEq α] :
    DecidableEq (Except ε α) := fun x y =>
  match x, y with
  | .error a, .error b =>
    if h : a = b then isTrue (by rw [h]) else isFalse (by simp [h])
  | .error _, .ok _ => isFalse (by simp)
  | .ok _, .error _ => isFalse (by simp)
  | .ok a, .ok b =>
    if h : a = b then isTrue (by rw [h]) else isFalse (by simp [h])

/-! ## Graph model (`gear_nodes.py`: `Node`, `GearNode`, `ExpressionNode`) -/

/-- Discriminates the node classes of `gear_nodes.py`.  Everything except
`gear` is a subclass of `ExpressionNode`. -/
inductive NodeKind
  | gear
  | constRotation
  | transmission
  | rangeCondition
deriving DecidableEq

/-- One vertex of the declarative graph: its class, the bone name of the
target gear (relevant for `GearNode`), and its declared links, each a
`(input_name, source_node, source_name)` triple as appended by
`Node.link`.  Source nodes are identified by their index in the graph's
node list. -/
structure GraphNode where
  kind : NodeKind
  target : String
  links : List (String × Nat × String)
deriving DecidableEq

/-- The whole graph: the `nodes` sequence passed to `build_drivers`. -/
structure Graph where
  nodes : List GraphNode
deriving DecidableEq

/-- The `isinstance(srcnode, ExpressionNode)` test of the source. -/
def isExpressionNode (g : Graph) (i : Nat) : Bool :=
  match g.nodes[i]? with
  | some nd =>
    match nd.kind with
    | .gear => false
    | _ => true
  | none => false

/-- The `isinstance(node, GearNode)` test of the source. -/
def isGearNode (g : Graph) (i : Nat) : Bool :=
  match g.nodes[i]? with
  | some nd =>
    match nd.kind with
    | .gear => true
    | _ => false
  | none => false

/-- The `node.links` field. -/
def nodeLinks (g : Graph) (i : Nat) : List (String × Nat × String) :=
  match g.nodes[i]? with
  | some nd => nd.links
  | none => []

/-- The target bone name of a node (`node.target_gear`). -/
def targetOf (g : Graph) (i : Nat) : String :=
  match g.nodes[i]? with
  | some nd => nd.target
  | none => ""

/-- The link sources `visit` recurses into: for every
`(inname, srcnode, srcname) in node.links`, the `srcnode` that passes the
`isinstance(srcnode, ExpressionNode)` check, in declaration order. -/
def exprSrcs (g : Graph) (i : Nat) : List Nat :=
  (nodeLinks g i).filterMap
    (fun l => if isExpressionNode g l.2.1 then some l.2.1 else none)

/-- A dependency edge of the graph: consumer `a` declares a link whose
producer is the expression node `b`.  These are exactly the edges the
depth-first search of `gather_expression_nodes` follows. -/
def Edge (g : Graph) (a b : Nat) : Prop :=
  b ∈ exprSrcs g a

instance (g : Graph) (a b : Nat) : Decidable (Edge g a b) := by
  unfold Edge
  infer_instance

/-- There is a cycle among the expression nodes reachable from `root`:
some node `v` reachable from `root` lies on a nonempty dependency cycle. -/
def HasCycleFrom (g : Graph) (root : Nat) : Prop :=
  ∃ v, Relation.ReflTransGen (Edge g) root v ∧ Relation.TransGen (Edge g) v v

/-- All declared links have `ExpressionNode` producers — the data-model
invariant "producer must be an ExpressionNode; GearNode is never a link
target". -/
def LinksWF (g : Graph) : Prop :=
  ∀ i, i < g.nodes.length → ∀ l ∈ nodeLinks g i, isExpressionNode g l.2.1 = true

instance (g : Graph) : Decidable (LinksWF g) := by
  unfold LinksWF
  infer_instance

/-! ## Depth-first topological sort (`gather_expression_nodes`) -/

/-- Errors of the sorting pass.  `cycle` is the
`Exception("Found cyclic node dependency")` of the source (the spec's
`GraphCycleError`); `fuel` is an artifact of the embedding: the Python
recursion carries no fuel, and the fuel-sufficiency lemma below shows the
`fuel` outcome never occurs when the root is a node of the graph. -/
inductive SortError
  | cycle
  | fuel
deriving DecidableEq

/-- Threads the exception monad through the `for`-loop of `visit`: once an
exception is raised the remaining iterations do not run. -/
def stepAcc (f : Nat → List Nat → List Nat → Except SortError (List Nat × List Nat))
    (acc : Except SortError (List Nat × List Nat)) (src : Nat) :
    Except SortError (List Nat × List Nat) :=
  match acc with
  | .error e => .error e
  | .ok (m, s) => f src m s

/-- The recursive `visit` of `gather_expression_nodes`.  State `marked` and
`sorted` are threaded; the `visiting` set is the current recursion path
(the source adds the node before the loop and removes it after, which is
the same as passing `node :: visiting` down).  Checks happen in source
order: `marked` first (return), then `visiting` (cycle exception), then the
loop over link sources restricted to expression nodes, then the node is
marked and appended. -/
def visit (g : Graph) : Nat → Nat → List Nat → List Nat → List Nat →
    Except SortError (List Nat × List Nat)
  | 0, _, _, _, _ => .error .fuel
  | fuel + 1, node, visiting, marked, sorted =>
    if node ∈ marked then .ok (marked, sorted)
    else if node ∈ visiting then .error .cycle
    else
      match (exprSrcs g node).foldl
          (stepAcc (fun src m s => visit g fuel src (node :: visiting) m s))
          (.ok (marked, sorted)) with
      | .error e => .error e
      | .ok (m, s) => .ok (node :: m, s ++ [node])

/-- The loop body of `visit` as a standalone function, for reasoning
about the fold. -/
def visitF (g : Graph) (fuel : Nat) (visiting : List Nat) :
    Nat → List Nat → List Nat → Except SortError (List Nat × List Nat) :=
  fun src m s => visit g fuel src visiting m s

/-- The sorted list respects all expression links among its members:
every expression producer of the node at position `i` occurs at an
earlier position. -/
def TopoAt (g : Graph) (s : List Nat) : Prop :=
  ∀ i, (hi : i < s.length) → ∀ p ∈ exprSrcs g s[i],
    ∃ j, ∃ hj : j < i, s[j] = p

/-- Invariant of the `marked` / `sorted` state of `visit`. -/
structure SortInv (g : Graph) (marked sorted : List Nat) : Prop where
  sync : ∀ x, x ∈ marked ↔ x ∈ sorted
  nodup : sorted.Nodup
  closed : ∀ c ∈ marked, ∀ p ∈ exprSrcs g c, p ∈ marked
  topo : TopoAt g sorted
  bounded : ∀ x ∈ sorted, x < g.nodes.length

/-- Returns the topological sort of the nodes reachable from `rootnode`
(the root included, appended last), or the cycle exception.  The fuel
`g.nodes.length + 1` is enough for any root that is a node of the graph. -/
def gather_expression_nodes (g : Graph) (rootnode : Nat) :
    Except SortError (List Nat) :=
  match visit g (g.nodes.length + 1) rootnode [] [] [] with
  | .error e => .error e
  | .ok (_, s) => .ok s

/-! ## Scope assignment and the compile loop (`build_drivers`) -/

/-- The per-node scope string `"Node{index}_".format(index=index)`. -/
def node_scope (index : Nat) : String :=
  "Node" ++ Nat.repr index ++ "_"

/-- Exceptions a compile run of `gear_nodes.build_drivers` can surface.
`cycle` and `fuel` are inherited from the sorting pass; `type_error` is
the `TypeError` raised by every call of the `node_value.py` `make_driver`
methods with keyword bindings; `attribute_error` is the `AttributeError`
raised by the undefined `NodeContext.from_gear`. -/
inductive RunError
  | cycle
  | fuel
  | type_error
  | attribute_error
deriving DecidableEq

/-- Every `make_driver` defined in `node_value.py` (base stub at line 39,
overrides at lines 62 and 94) has the signature
`(self, expression, variables, use_self=False)`; every call site in
`gear_nodes.py` (lines 30, 34, 58, 89, 100, 137, 171 and 176) instead
passes keyword bindings such as `rot=`, `speed=`, `frame_prev=`,
`input=`.  Python rejects the unexpected keyword arguments, so each of
these calls raises `TypeError` unconditionally, and the `{placeholder}`
templates are never formatted. -/
def node_value_make_driver_kw : Except RunError Unit :=
  .error .type_error

/-- `gear_nodes.setup_armature(obj, frame_current)`: creates the
`frame_delta` and `frame_prev` id-properties, then calls
`frame_delta.make_driver` with keyword bindings (gear_nodes.py:171),
which raises `TypeError` as above — the function never returns
normally. -/
def gear_nodes_setup_armature : Except RunError Unit :=
  node_value_make_driver_kw

/-- The body of the `for node in nodes: if isinstance(node, GearNode)`
loop of `gear_nodes.build_drivers` for one anchor: gather the expression
nodes (which can raise the cycle exception), then evaluate
`context = NodeContext.from_gear(node.target_gear)` (gear_nodes.py:211).
`NodeContext` (node_value.py:20) defines no attribute `from_gear`, so the
loop raises `AttributeError` before any scope is assigned or any node is
built. -/
def compile_anchor (g : Graph) (root : Nat) : Except RunError Unit :=
  match gather_expression_nodes g root with
  | .error .cycle => .error .cycle
  | .error .fuel => .error .fuel
  | .ok _ => .error .attribute_error

/-- The anchor loop of `gear_nodes.build_drivers` over a list of node
indices; the first exception aborts the run. -/
def build_anchors (g : Graph) : List Nat → Except RunError Unit
  | [] => .ok ()
  | i :: is =>
    if isGearNode g i then
      match compile_anchor g i with
      | .error e => .error e
      | .ok _ => build_anchors g is
    else build_anchors g is

/-- The whole run `gear_nodes.build_drivers(obj, nodes, frame_current)`:
after `cleanup_armature` it calls `setup_armature` (gear_nodes.py:184),
which raises `TypeError` before the anchor loop is ever reached — so no
scope is ever assigned and no node is ever built by this pipeline. -/
def build_drivers (g : Graph) : Except RunError Unit :=
  match gear_nodes_setup_armature with
  | .error e => .error e
  | .ok _ => build_anchors g (List.range g.nodes.length)

/-! ## The working scope assignment (`gear_drivers.build_drivers`) -/

/-- The scope loop of the working pipeline, gear_drivers.py:367-369:
`for i, node in enumerate(nodes): node.scope = "Node{index}_"` — every
node of the run receives a scope numbered by its run-global position in
the node list, independent of its anchor or its target entity. -/
def assign_scopes (nodes : List GraphNode) : List (GraphNode × String) :=
  nodes.enum.map (fun p => (p.2, node_scope p.1))

/-! ## TransmissionNode (`TransmissionNode.build_drivers`) -/

/-- Exceptions of `TransmissionNode.build_drivers`: `zero_division` is
the `ZeroDivisionError` of `ratio = input_teeth / output_teeth`;
`type_error` is the `TypeError` of the subsequent keyword-binding
`rotation.make_driver(…)` call; `invalid_mechanism` has no counterpart
anywhere in the source — it exists only to state the claim that names
it, and is never produced. -/
inductive TransmissionError
  | zero_division
  | type_error
  | invalid_mechanism
deriving DecidableEq

/-- `TransmissionNode.build_drivers` (gear_nodes.py:81-109): creates the
`tooth_phase`, `rotation`, `condition` and `tooth_offset` scalars, then
computes `ratio = input_teeth / output_teeth` — `ZeroDivisionError` iff
`output_teeth == 0`, with no other validation of the teeth counts — and
then calls `rotation.make_driver(…)` with keyword bindings, which raises
`TypeError` unconditionally: the method never completes and neither
driver of the rule pair is ever emitted. -/
def transmission_build_drivers (input_teeth output_teeth : ℤ) :
    Except TransmissionError Unit :=
  if output_teeth = 0 then .error .zero_division
  else .error .type_error

/-! ## RangeConditionNode (`RangeConditionNode.build_drivers`) -/

/-- The data of the emitted condition driver: the normalized `start` and
`stop` revolution fractions and the `C = 1/(2*pi)` literal, plus which of
the two expression templates was chosen (`use_or` iff `start > stop`). -/
structure RangeRule where
  start : ℚ
  stop : ℚ
  C : ℚ
  use_or : Bool
deriving DecidableEq

/-- The build-time part of `RangeConditionNode.build_drivers`
(gear_nodes.py:129-136, straight-line source): normalizes both angles to
revolution fractions with `x*C - floor(x*C)` where `C = 1.0/(2.0*pi)`,
and picks the `and` template when `start <= stop`, the `or` template
otherwise. -/
def range_condition_build (piv start_angle stop_angle : ℚ) : RangeRule :=
  let one_over_two_pi : ℚ := 1 / (2 * piv)
  let start := start_angle * one_over_two_pi - ⌊start_angle * one_over_two_pi⌋
  let stop := stop_angle * one_over_two_pi - ⌊stop_angle * one_over_two_pi⌋
  if start ≤ stop
  then ⟨start, stop, one_over_two_pi, false⟩
  else ⟨start, stop, one_over_two_pi, true⟩

/-- Modelled from the spec: the placeholder-resolving
`make_driver(expression_template, bindings…)` of spec section 4.5 is
missing from `src/` — `node_value.py` declares only the stub
`NodeValue.make_driver` (line 39) and stale positional overrides, while
`gear_nodes.py` calls it with keyword bindings — so the denotation of the
condition templates
`"1.0 if {input}*{C}-floor({input}*{C}) >= {start} and {input}*{C}-floor({input}*{C}) < {stop} else 0.0"`
(resp. the `or` variant, gear_nodes.py:134-136) is modelled from the
spec's substitution semantics: each placeholder stands for its bound
value, the fraction is `input*C - floor(input*C)` at a live input
rotation, and the expression yields `1.0` when the test passes, else
`0.0`. -/
def range_condition_expr (r : RangeRule) (input : ℚ) : ℚ :=
  let frac := input * r.C - ⌊input * r.C⌋
  if r.use_or then (if r.start ≤ frac ∨ frac < r.stop then 1 else 0)
  else (if r.start ≤ frac ∧ frac < r.stop then 1 else 0)

/-- `RangeConditionNode.build_drivers` as a whole: computes the start and
stop fractions and selects the template (the `range_condition_build`
part, real straight-line source), then calls
`condition.make_driver(expr, input=…, C=…, start=…, stop=…)`
(gear_nodes.py:137-142), which raises `TypeError` — the condition driver
is never created. -/
def range_condition_node_build_drivers (piv start_angle stop_angle : ℚ) :
    Except RunError RangeRule :=
  let r := range_condition_build piv start_angle stop_angle
  match node_value_make_driver_kw with
  | .error e => .error e
  | .ok _ => .ok r

/-! ## Frame timing (`gear_drivers.setup_armature`, lines 342-348) -/

/-- The per-entity timing state: the two id-properties created once per
armature object. -/
structure FrameState where
  frame_prev : ℚ
  frame_delta : ℚ
deriving DecidableEq

/-- Denotation of the delta driver expression
`"frame - self['__gearsim__frame_prev']"`, emitted pre-substituted by the
working `gear_drivers.setup_armature` (line 345) with `use_self=True`:
`frame` is the host's current frame and the self-access read is the
previously committed `frame_prev` value. -/
def frame_delta_expr (frame self_frame_prev : ℚ) : ℚ :=
  frame - self_frame_prev

/-- Denotation of the previous-frame driver expression `"frame"`
(gear_drivers.py:348): the bound `delta` variable does not occur in
it. -/
def frame_prev_expr (frame : ℚ) (delta : ℚ) : ℚ :=
  frame

/-- The declared driver-variable bindings of the `frame_prev` driver
(gear_drivers.py:348): the dummy `delta` variable added purely as an
ordering dependency. -/
def frame_prev_deps : List String :=
  ["delta"]

/-- The `frame_delta` driver uses self-access (gear_drivers.py:345). -/
def frame_delta_use_self : Bool :=
  true

/-- Modelled from the spec: the host's reactive evaluator (external to
the repository, spec sections 5 and 6) orders rule evaluation by declared
dependencies only.  Because the `frame_prev` rule declares a dependency
on `frame_delta`, the delta rule is evaluated first, against the
previously committed `frame_prev`; otherwise `frame_prev` would commit
first and the delta rule would read the new value. -/
def host_eval_frame (s : FrameState) (frame : ℚ) : FrameState :=
  if "delta" ∈ frame_prev_deps then
    let d := frame_delta_expr frame s.frame_prev
    ⟨frame_prev_expr frame d, d⟩
  else
    let p := frame_prev_expr frame s.frame_delta
    ⟨p, frame_delta_expr frame p⟩

/-! ## Length-guarded driver emission (`gear_drivers.make_idprop_driver`) -/

/-- Failure of the expression-length assertion — the spec's
`ExpressionTooLongError`. -/
inductive DriverError
  | expression_too_long
deriving DecidableEq

/-- A created scripted driver: target id-property, final expression,
bound variable names and self-access flag. -/
structure DriverHandle where
  target_prop : String
  expression : String
  driver_variables : List String
  use_self : Bool
deriving DecidableEq

/-- `make_idprop_driver(target, propname, expression, variables, use_self)`:
asserts `len(expression) <= max_expr_len` before creating the driver, so
the error is raised iff the expression exceeds the backend capability
constant, and an emitted driver's expression never exceeds it. -/
def make_idprop_driver (max_expr_len : Nat) (propname expression : String)
    (driver_variables : List String) (use_self : Bool) :
    Except DriverError DriverHandle :=
  if expression.length ≤ max_expr_len
  then .ok ⟨propname, expression, driver_variables, use_self⟩
  else .error .expression_too_long

/-! ## The working ConstRotationNode (`gear_drivers.py:161-182`) -/

/-- `ConstRotationNode.build_drivers` of the working pipeline: after
creating the scoped `speed` and `rotation` scalars it emits one driver on
the scoped `rotation` scalar through the length-guarded
`make_idprop_driver`.  The expression is formatted at build time by
Python itself:
`"{curval}+{speed}*{delta}".format(curval=context.current_value_expr,
speed=speedvar, delta=deltavar)`, where the speed variable is named
`"speed"`, the frame-delta variable is named `"dt"` (lines 170-171), and
`context.current_value_expr` is the live-transform read
`"self.rotation_euler.<axis>"` set by `TargetNode.build_drivers`
(line 150) — giving `current_value_expr ++ "+speed*dt"`.  The declared
driver variables are `speed` and `dt`, and `use_self=True`. -/
def gd_const_rotation_build (max_expr_len : Nat)
    (scope current_value_expr : String) : Except DriverError DriverHandle :=
  make_idprop_driver max_expr_len (scope ++ "rotation")
    (current_value_expr ++ "+speed*dt") ["speed", "dt"] true

/-- Denotation of the formatted working const-rotation expression
`"self.rotation_euler.<axis>+speed*dt"` at one evaluation: the only
self-access read is the bone's previous committed euler rotation, and
`speed` and `dt` are the two declared driver variables.  The driven
rotation property's own previous value is not referenced by the
expression. -/
def gd_const_rotation_value (bone_euler_prev speed dt : ℚ) : ℚ :=
  bone_euler_prev + speed * dt

/-! ## Id-property creation (`PropertyNamespace.add_idprop`) -/

/-- The `_RNA_UI` metadata row written for a property. -/
structure PropMeta where
  default : ℚ
  min : ℚ
  max : ℚ
deriving DecidableEq

/-- A property-bearing target: either a pose bone (with its name) or an
ID datablock.  `props` is the id-property mapping, `rna_ui` the
`"_RNA_UI"` metadata table (modelled as a separate field; the source
stores it under the reserved key `"_RNA_UI"`, which never collides with
the `"__gearsim__"`-prefixed property keys). -/
structure PropTarget where
  is_bone : Bool
  bone_name : String
  props : String → Option ℚ
  rna_ui : String → Option PropMeta

/-- `PropertyNamespace.idprop_uuid` for the `"__gearsim__"` namespace:
pose-bone properties are additionally prefixed with the bone name. -/
def idprop_uuid (t : PropTarget) (name : String) : String :=
  if t.is_bone then "__gearsim__" ++ t.bone_name ++ "_" ++ name
  else "__gearsim__" ++ name

/-- `PropertyNamespace.add_idprop(target, prop, value, min, max)`: the
stored value is written only when the key is absent
(`target.get(prop) is None`); the `_RNA_UI` metadata row for the key is
always rewritten. -/
def add_idprop (t : PropTarget) (prop : String) (value mn mx : ℚ) : PropTarget :=
  let key := idprop_uuid t prop
  { t with
    props :=
      match t.props key with
      | none => fun k => if k = key then some value else t.props k
      | some _ => t.props
    rna_ui := fun k => if k = key then some ⟨value, mn, mx⟩ else t.rna_ui k }

/-! ## Decimal representation helper (for scope uniqueness) -/

/-- Recovers the numeric value of a decimal digit string; used to prove
`Nat.repr` injective, which makes the `"Node{index}_"` scopes of one
anchor pairwise distinct. -/
def decimalValue (l : List Char) : Nat :=
  l.foldl (fun a c => 10 * a + (c.toNat - 48)) 0

/-! ## Concrete graphs used as witnesses -/

/-- A two-node acyclic graph: gear anchor `0` consuming const-rotation
node `1`. -/
def exGraphChain : Graph :=
  ⟨[⟨.gear, "B", [("input_value", 1, "output_value")]⟩,
    ⟨.constRotation, "B", []⟩]⟩

/-- A cyclic graph: gear anchor `0` consumes node `1`, and expression
nodes `1` and `2` consume each other. -/
def exGraphCycle : Graph :=
  ⟨[⟨.gear, "B", [("input_value", 1, "output_value")]⟩,
    ⟨.constRotation, "B", [("condition_value", 2, "condition_value")]⟩,
    ⟨.rangeCondition, "B", [("input_value", 1, "output_value")]⟩]⟩

/-- Two gear anchors (nodes `0` and `2`) on the same target entity, each
consuming its own const-rotation node. -/
def exGraphTwoAnchors : Graph :=
  ⟨[⟨.gear, "B", [("input_value", 1, "output_value")]⟩,
    ⟨.constRotation, "B", []⟩,
    ⟨.gear, "B", [("input_value", 3, "output_value")]⟩,
    ⟨.constRotation, "B", []⟩]⟩

/-- A pose bone that already stores a user-tuned value `5` for the scoped
`speed` property. -/
def exTarget : PropTarget :=
  ⟨true, "Bone",
    fun k => if k = "__gearsim__Bone_Node0_speed" then some 5 else none,
    fun _ => none⟩

/-! # Theorems -/

/-! ## Basic facts about the graph accessors -/

theorem mem_exprSrcs_isExpr {g : Graph} {i p : Nat} (h : p ∈ exprSrcs g i) :
    isExpressionNode g p = true := by
  unfold exprSrcs at h
  rw [List.mem_filterMap] at h
  obtain ⟨l, _, hl⟩ := h
  by_cases hb : isExpressionNode g l.2.1 = true
  · simp only [hb, if_true, Option.some.injEq] at hl
    rw [← hl]
    exact hb
  · simp [hb] at hl

theorem isExpr_lt {g : Graph} {p : Nat} (h : isExpressionNode g p = true) :
    p < g.nodes.length := by
  unfold isExpressionNode at h
  cases hg : g.nodes[p]? with
  | none => rw [hg] at h; simp at h
  | some nd =>
    have := List.getElem?_eq_some.mp hg
    exact this.1

theorem mem_exprSrcs_lt {g : Graph} {i p : Nat} (h : p ∈ exprSrcs g i) :
    p < g.nodes.length :=
  isExpr_lt (mem_exprSrcs_isExpr h)

theorem exprSrcs_of_links {g : Graph} {i : Nat} {l : String × Nat × String}
    (hl : l ∈ nodeLinks g i) (he : isExpressionNode g l.2.1 = true) :
    l.2.1 ∈ exprSrcs g i := by
  unfold exprSrcs
  rw [List.mem_filterMap]
  exact ⟨l, hl, by rw [he]; simp⟩

/-! ## Unfolding lemmas for `visit` -/

theorem foldl_stepAcc_error
    (f : Nat → List Nat → List Nat → Except SortError (List Nat × List Nat))
    (e : SortError) (l : List Nat) :
    l.foldl (stepAcc f) (.error e) = .error e := by
  induction l with
  | nil => rfl
  | cons x xs ih => rw [List.foldl_cons]; exact ih

theorem visit_zero (g : Graph) (node : Nat) (vis mk st : List Nat) :
    visit g 0 node vis mk st = .error .fuel := rfl

theorem visit_succ (g : Graph) (fuel node : Nat) (vis mk st : List Nat) :
    visit g (fuel + 1) node vis mk st =
      if node ∈ mk then .ok (mk, st)
      else if node ∈ vis then .error .cycle
      else
        match (exprSrcs g node).foldl (stepAcc (visitF g fuel (node :: vis)))
            (.ok (mk, st)) with
        | .error e => .error e
        | .ok (m, s) => .ok (node :: m, s ++ [node]) := rfl

/-! ## Topological-order bookkeeping -/

theorem topoAt_nil (g : Graph) : TopoAt g [] := by
  intro i hi
  exact absurd hi (by simp)

theorem topoAt_append {g : Graph} {s : List Nat} {node : Nat}
    (hs : TopoAt g s) (h : ∀ p ∈ exprSrcs g node, p ∈ s) :
    TopoAt g (s ++ [node]) := by
  intro i hi p hp
  rcases Nat.lt_or_ge i s.length with hilt | hige
  · rw [List.getElem_append_left hilt] at hp
    obtain ⟨j, hj, hjp⟩ := hs i hilt p hp
    exact ⟨j, hj, by rw [List.getElem_append_left (Nat.lt_trans hj hilt)]; exact hjp⟩
  · have hieq : i = s.length := by
      have : i < s.length + 1 := by simpa using hi
      omega
    subst hieq
    rw [List.getElem_append_right (Nat.le_refl _)] at hp
    simp only [Nat.sub_self, List.getElem_singleton] at hp
    obtain ⟨j, hjlt, hjp⟩ := List.mem_iff_getElem.mp (h p hp)
    exact ⟨j, hjlt, by rw [List.getElem_append_left hjlt]; exact hjp⟩

/-! ## Decimal digits: `Nat.repr` is injective -/

theorem toDigitsCore_shift (fuel : Nat) : ∀ (n : Nat) (l : List Char),
    Nat.toDigitsCore 10 fuel n l = Nat.toDigitsCore 10 fuel n [] ++ l := by
  induction fuel with
  | zero => intro n l; rfl
  | succ fuel ih =>
    intro n l
    simp only [Nat.toDigitsCore]
    by_cases h : n / 10 = 0
    · simp [h]
    · rw [if_neg h, if_neg h, ih (n / 10) (Nat.digitChar (n % 10) :: l),
        ih (n / 10) [Nat.digitChar (n % 10)]]
      simp

theorem digitChar_val : ∀ d, d < 10 → (Nat.digitChar d).toNat - 48 = d := by decide

theorem decimalValue_snoc (l : List Char) (c : Char) :
    decimalValue (l ++ [c]) = 10 * decimalValue l + (c.toNat - 48) := by
  unfold decimalValue
  rw [List.foldl_append]
  rfl

theorem toDigitsCore_val : ∀ fuel n, n < fuel →
    decimalValue (Nat.toDigitsCore 10 fuel n []) = n := by
  intro fuel
  induction fuel with
  | zero => intro n hn; exact absurd hn (Nat.not_lt_zero n)
  | succ fuel ih =>
    intro n hn
    simp only [Nat.toDigitsCore]
    by_cases h : n / 10 = 0
    · rw [if_pos h]
      have hlt : n < 10 := by
        rcases Nat.lt_or_ge n 10 with h10 | h10
        · exact h10
        · exact absurd h (by
            have : 1 ≤ n / 10 := (Nat.le_div_iff_mul_le (by norm_num)).mpr (by omega)
            omega)
      have : decimalValue [Nat.digitChar (n % 10)] = n % 10 := by
        show 10 * 0 + ((Nat.digitChar (n % 10)).toNat - 48) = n % 10
        rw [digitChar_val (n % 10) (Nat.mod_lt n (by norm_num))]
        omega
      rw [this, Nat.mod_eq_of_lt hlt]
    · rw [if_neg h, toDigitsCore_shift, decimalValue_snoc]
      have hn10 : n / 10 < fuel := by
        have hpos : 0 < n := by
          rcases Nat.eq_zero_or_pos n with rfl | hp
          · exact absurd (by norm_num : (0 : Nat) / 10 = 0) h
          · exact hp
        have := Nat.div_lt_self hpos (by norm_num : 1 < 10)
        omega
      rw [ih (n / 10) hn10, digitChar_val (n % 10) (Nat.mod_lt n (by omega))]
      omega

theorem natRepr_injective : Function.Injective Nat.repr := by
  intro m n h
  have hd : Nat.toDigits 10 m = Nat.toDigits 10 n := by
    have := congrArg String.data h
    simpa [Nat.repr, List.asString] using this
  have hm := toDigitsCore_val (m + 1) m (Nat.lt_succ_self m)
  have hn := toDigitsCore_val (n + 1) n (Nat.lt_succ_self n)
  unfold Nat.toDigits at hd
  rw [← hm, ← hn, hd]

theorem node_scope_injective : Function.Injective node_scope := by
  intro i j h
  unfold node_scope at h
  have hd := congrArg String.data h
  simp only [String.data_append] at hd
  have h1 := List.append_cancel_right hd
  have h2 := List.append_cancel_left h1
  exact natRepr_injective (by
    apply congrArg String.mk at h2
    simpa using h2)

/-! ## The main invariant of `visit` -/

theorem visit_ok_inv (g : Graph) : ∀ fuel node vis mk st out,
    visit g fuel node vis mk st = .ok out → SortInv g mk st →
    node < g.nodes.length →
    SortInv g out.1 out.2 ∧ node ∈ out.1 ∧ mk ⊆ out.1 ∧
      (∀ x ∈ out.1, x ∈ mk ∨ x ∉ vis) := by
  intro fuel
  induction fuel with
  | zero =>
    intro node vis mk st out h
    rw [visit_zero] at h
    exact absurd h (by simp)
  | succ fuel ih =>
    have Q : ∀ (srcs : List Nat) vis mk st out,
        srcs.foldl (stepAcc (visitF g fuel vis)) (.ok (mk, st)) = .ok out →
        SortInv g mk st → (∀ x ∈ srcs, x < g.nodes.length) →
        SortInv g out.1 out.2 ∧ (∀ x ∈ srcs, x ∈ out.1) ∧ mk ⊆ out.1 ∧
          (∀ x ∈ out.1, x ∈ mk ∨ x ∉ vis) := by
      intro srcs
      induction srcs with
      | nil =>
        intro vis mk st out h hinv _
        rw [List.foldl_nil] at h
        cases h
        exact ⟨hinv, by simp, fun x hx => hx, fun x hx => Or.inl hx⟩
      | cons y ys ihy =>
        intro vis mk st out h hinv hb
        rw [List.foldl_cons] at h
        have hstep : stepAcc (visitF g fuel vis) (.ok (mk, st)) y
            = visit g fuel y vis mk st := rfl
        rw [hstep] at h
        cases hv : visit g fuel y vis mk st with
        | error e =>
          rw [hv, foldl_stepAcc_error] at h
          exact absurd h (by simp)
        | ok p =>
          rw [hv] at h
          have hy := ih y vis mk st p hv hinv (hb y (by simp))
          have hys := ihy vis p.1 p.2 out h hy.1
            (fun x hx => hb x (by simp [hx]))
          refine ⟨hys.1, ?_, fun x hx => hys.2.2.1 (hy.2.2.1 hx), ?_⟩
          · intro x hx
            rcases List.mem_cons.mp hx with rfl | hxy
            · exact hys.2.2.1 hy.2.1
            · exact hys.2.1 x hxy
          · intro x hx
            rcases hys.2.2.2 x hx with h1 | h1
            · exact hy.2.2.2 x h1
            · exact Or.inr h1
    intro node vis mk st out h hinv hlt
    rw [visit_succ] at h
    by_cases hmk : node ∈ mk
    · rw [if_pos hmk] at h
      cases h
      exact ⟨hinv, hmk, fun x hx => hx, fun x hx => Or.inl hx⟩
    · rw [if_neg hmk] at h
      by_cases hvis : node ∈ vis
      · rw [if_pos hvis] at h
        exact absurd h (by simp)
      · rw [if_neg hvis] at h
        cases hf : (exprSrcs g node).foldl
            (stepAcc (visitF g fuel (node :: vis))) (.ok (mk, st)) with
        | error e =>
          rw [hf] at h
          exact absurd h (by simp)
        | ok p =>
          obtain ⟨m, s⟩ := p
          rw [hf] at h
          have h' : (Except.ok (node :: m, s ++ [node]) :
              Except SortError (List Nat × List Nat)) = .ok out := h
          have h'' : (node :: m, s ++ [node]) = out := by
            injection h'
          subst h''
          have hq := Q (exprSrcs g node) (node :: vis) mk st (m, s) hf hinv
            (fun x hx => mem_exprSrcs_lt hx)
          have hnode_m : node ∉ m := by
            intro hm
            rcases hq.2.2.2 node hm with h1 | h1
            · exact hmk h1
            · exact h1 (by simp)
          have hnode_s : node ∉ s := fun hs => hnode_m ((hq.1.sync node).mpr hs)
          have hinv' : SortInv g (node :: m) (s ++ [node]) := by
            refine ⟨?_, ?_, ?_, ?_, ?_⟩
            · intro x
              simp only [List.mem_cons, List.mem_append, List.mem_singleton,
                List.not_mem_nil, hq.1.sync x]
              tauto
            · rw [List.nodup_append]
              refine ⟨hq.1.nodup, List.nodup_singleton _, ?_⟩
              intro a ha hb
              rw [List.mem_singleton] at hb
              subst hb
              exact hnode_s ha
            · intro c hc p hp
              rcases List.mem_cons.mp hc with rfl | hcm
              · exact List.mem_cons_of_mem _ (hq.2.1 p hp)
              · exact List.mem_cons_of_mem _ (hq.1.closed c hcm p hp)
            · exact topoAt_append hq.1.topo
                (fun p hp => (hq.1.sync p).mp (hq.2.1 p hp))
            · intro x hx
              rcases List.mem_append.mp hx with hxs | hxn
              · exact hq.1.bounded x hxs
              · rw [List.mem_singleton] at hxn
                subst hxn
                exact hlt
          refine ⟨hinv', by simp, ?_, ?_⟩
          · exact fun x hx => List.mem_cons_of_mem _ (hq.2.2.1 hx)
          · intro x hx
            rcases List.mem_cons.mp hx with rfl | hxm
            · exact Or.inr hvis
            · rcases hq.2.2.2 x hxm with h1 | h1
              · exact Or.inl h1
              · exact Or.inr (fun hc => h1 (List.mem_cons_of_mem _ hc))

/-! ## Fuel sufficiency -/

theorem length_le_of_nodup_bounded {l : List Nat} {n : Nat} (hnd : l.Nodup)
    (hlt : ∀ x ∈ l, x < n) : l.length ≤ n := by
  have h1 : l.toFinset ⊆ Finset.range n := by
    intro x hx
    exact Finset.mem_range.mpr (hlt x (List.mem_toFinset.mp hx))
  have h2 := Finset.card_le_card h1
  rwa [List.toFinset_card_of_nodup hnd, Finset.card_range] at h2

theorem visit_no_fuel (g : Graph) : ∀ fuel node vis mk st,
    vis.Nodup → (∀ v ∈ vis, v < g.nodes.length) → node < g.nodes.length →
    g.nodes.length + 1 ≤ fuel + vis.length →
    visit g fuel node vis mk st ≠ .error .fuel := by
  intro fuel
  induction fuel with
  | zero =>
    intro node vis mk st hnd hb hn hfuel
    exfalso
    have := length_le_of_nodup_bounded hnd hb
    omega
  | succ fuel ih =>
    have Q : ∀ (srcs : List Nat) node vis mk st,
        (node :: vis).Nodup → (∀ v ∈ node :: vis, v < g.nodes.length) →
        (∀ x ∈ srcs, x < g.nodes.length) →
        g.nodes.length + 1 ≤ fuel + (node :: vis).length →
        srcs.foldl (stepAcc (visitF g fuel (node :: vis))) (.ok (mk, st)) ≠
          .error .fuel := by
      intro srcs
      induction srcs with
      | nil =>
        intro node vis mk st _ _ _ _ h
        rw [List.foldl_nil] at h
        exact absurd h (by simp)
      | cons y ys ihy =>
        intro node vis mk st hnd hb hbs hfuel h
        rw [List.foldl_cons] at h
        have hstep : stepAcc (visitF g fuel (node :: vis)) (.ok (mk, st)) y
            = visit g fuel y (node :: vis) mk st := rfl
        rw [hstep] at h
        cases hv : visit g fuel y (node :: vis) mk st with
        | error e =>
          rw [hv, foldl_stepAcc_error] at h
          have he : e = SortError.fuel := by injection h
          subst he
          exact ih y (node :: vis) mk st hnd hb (hbs y (by simp)) hfuel hv
        | ok p =>
          rw [hv] at h
          exact ihy node vis p.1 p.2 hnd hb (fun x hx => hbs x (by simp [hx]))
            hfuel h
    intro node vis mk st hnd hb hn hfuel h
    rw [visit_succ] at h
    by_cases hmk : node ∈ mk
    · rw [if_pos hmk] at h
      exact absurd h (by simp)
    · rw [if_neg hmk] at h
      by_cases hvis : node ∈ vis
      · rw [if_pos hvis] at h
        exact absurd h (by simp)
      · rw [if_neg hvis] at h
        cases hf : (exprSrcs g node).foldl
            (stepAcc (visitF g fuel (node :: vis))) (.ok (mk, st)) with
        | error e =>
          rw [hf] at h
          have he : e = SortError.fuel := by injection h
          subst he
          refine Q (exprSrcs g node) node vis mk st
            (List.nodup_cons.mpr ⟨hvis, hnd⟩) ?_
            (fun x hx => mem_exprSrcs_lt hx) ?_ hf
          · intro v hv
            rcases List.mem_cons.mp hv with rfl | h'
            · exact hn
            · exact hb v h'
          · rw [List.length_cons]
            omega
        | ok p =>
          obtain ⟨m, s⟩ := p
          rw [hf] at h
          exact absurd h (by simp)

/-! ## A cycle error exposes a reachable dependency cycle -/

theorem chain_flip_transGen (g : Graph) : ∀ (l : List Nat) (x y : Nat),
    List.Chain (fun a b => Edge g b a) x l → y ∈ l →
    Relation.TransGen (Edge g) y x := by
  intro l
  induction l with
  | nil =>
    intro x y _ hy
    exact absurd hy (by simp)
  | cons b t ih =>
    intro x y hch hy
    rw [List.chain_cons] at hch
    rcases List.mem_cons.mp hy with rfl | hyt
    · exact Relation.TransGen.single hch.1
    · exact (ih b y hch.2 hyt).tail hch.1

theorem visit_cycle_hasCycle (g : Graph) (root : Nat) : ∀ fuel node vis mk st,
    visit g fuel node vis mk st = .error .cycle →
    List.Chain (fun a b => Edge g b a) node vis →
    (∀ v ∈ node :: vis, Relation.ReflTransGen (Edge g) root v) →
    HasCycleFrom g root := by
  intro fuel
  induction fuel with
  | zero =>
    intro node vis mk st h
    rw [visit_zero] at h
    exact absurd h (by simp)
  | succ fuel ih =>
    have Q : ∀ (srcs : List Nat) node vis mk st,
        srcs.foldl (stepAcc (visitF g fuel (node :: vis))) (.ok (mk, st)) =
          .error .cycle →
        (∀ x ∈ srcs, Edge g node x) →
        List.Chain (fun a b => Edge g b a) node vis →
        (∀ v ∈ node :: vis, Relation.ReflTransGen (Edge g) root v) →
        HasCycleFrom g root := by
      intro srcs
      induction srcs with
      | nil =>
        intro node vis mk st h
        rw [List.foldl_nil] at h
        exact absurd h (by simp)
      | cons y ys ihy =>
        intro node vis mk st h hedges hch hreach
        rw [List.foldl_cons] at h
        have hstep : stepAcc (visitF g fuel (node :: vis)) (.ok (mk, st)) y
            = visit g fuel y (node :: vis) mk st := rfl
        rw [hstep] at h
        cases hv : visit g fuel y (node :: vis) mk st with
        | error e =>
          rw [hv, foldl_stepAcc_error] at h
          have he : e = SortError.cycle := by injection h
          subst he
          refine ih y (node :: vis) mk st hv
            (List.chain_cons.mpr ⟨hedges y (by simp), hch⟩) ?_
          intro v hv'
          rcases List.mem_cons.mp hv' with rfl | h'
          · exact (hreach node (by simp)).tail (hedges v (by simp))
          · exact hreach v h'
        | ok p =>
          rw [hv] at h
          exact ihy node vis p.1 p.2 h (fun x hx => hedges x (by simp [hx]))
            hch hreach
    intro node vis mk st h hch hreach
    rw [visit_succ] at h
    by_cases hmk : node ∈ mk
    · rw [if_pos hmk] at h
      exact absurd h (by simp)
    · rw [if_neg hmk] at h
      by_cases hvis : node ∈ vis
      · exact ⟨node, hreach node (by simp),
          chain_flip_transGen g vis node node hch hvis⟩
      · rw [if_neg hvis] at h
        cases hf : (exprSrcs g node).foldl
            (stepAcc (visitF g fuel (node :: vis))) (.ok (mk, st)) with
        | error e =>
          rw [hf] at h
          have he : e = SortError.cycle := by injection h
          subst he
          exact Q (exprSrcs g node) node vis mk st hf (fun x hx => hx) hch hreach
        | ok p =>
          obtain ⟨m, s⟩ := p
          rw [hf] at h
          exact absurd h (by simp)

/-! ## Topological order excludes cycles among the sorted nodes -/

theorem exprSrcs_oob {g : Graph} {a : Nat} (h : g.nodes.length ≤ a) :
    exprSrcs g a = [] := by
  unfold exprSrcs nodeLinks
  rw [List.getElem?_eq_none h]
  rfl

theorem topo_index_lt {g : Graph} {s : List Nat} (ht : TopoAt g s)
    (hnd : s.Nodup) {a b : Nat} (ha : a ∈ s) (hab : Edge g a b) :
    b ∈ s ∧ s.indexOf b < s.indexOf a := by
  have hia : s.indexOf a < s.length := List.indexOf_lt_length.mpr ha
  have hga : s[s.indexOf a] = a := List.getElem_indexOf hia
  have hb : b ∈ exprSrcs g s[s.indexOf a] := by rw [hga]; exact hab
  obtain ⟨j, hj, hjb⟩ := ht (s.indexOf a) hia b hb
  have hjlt : j < s.length := Nat.lt_trans hj hia
  have hbs : b ∈ s := by rw [← hjb]; exact List.getElem_mem hjlt
  have hib : s.indexOf b < s.length := List.indexOf_lt_length.mpr hbs
  have heq : s[s.indexOf b] = s[j] := by rw [List.getElem_indexOf hib, hjb]
  have hidx : s.indexOf b = j := (hnd.getElem_inj_iff).mp heq
  exact ⟨hbs, by rw [hidx]; exact hj⟩

theorem topo_transGen_index {g : Graph} {s : List Nat} (ht : TopoAt g s)
    (hnd : s.Nodup) {a b : Nat} (h : Relation.TransGen (Edge g) a b)
    (ha : a ∈ s) : b ∈ s ∧ s.indexOf b < s.indexOf a := by
  induction h with
  | single hab => exact topo_index_lt ht hnd ha hab
  | tail _ hbc ih =>
    have h2 := topo_index_lt ht hnd ih.1 hbc
    exact ⟨h2.1, Nat.lt_trans h2.2 ih.2⟩

theorem topo_no_cycle {g : Graph} {s : List Nat} (ht : TopoAt g s)
    (hnd : s.Nodup) {v : Nat} (hv : v ∈ s) :
    ¬ Relation.TransGen (Edge g) v v := fun hcyc =>
  absurd (topo_transGen_index ht hnd hcyc hv).2 (lt_irrefl _)

/-! ## Properties of `gather_expression_nodes` -/

theorem gather_ok_props {g : Graph} {root : Nat} {s : List Nat}
    (h : gather_expression_nodes g root = .ok s)
    (hroot : root < g.nodes.length) :
    TopoAt g s ∧ s.Nodup ∧ root ∈ s ∧
      (∀ c ∈ s, ∀ p ∈ exprSrcs g c, p ∈ s) ∧
      (∀ x ∈ s, x < g.nodes.length) := by
  unfold gather_expression_nodes at h
  cases hv : visit g (g.nodes.length + 1) root [] [] [] with
  | error e =>
    rw [hv] at h
    exact absurd h (by simp)
  | ok p =>
    obtain ⟨mk, st⟩ := p
    rw [hv] at h
    have h' : (Except.ok st : Except SortError (List Nat)) = .ok s := h
    have hs : st = s := by injection h'
    subst hs
    have hinv0 : SortInv g [] [] :=
      ⟨by simp, List.nodup_nil, by simp, topoAt_nil g, by simp⟩
    have hmain := visit_ok_inv g (g.nodes.length + 1) root [] [] [] (mk, st)
      hv hinv0 hroot
    refine ⟨hmain.1.topo, hmain.1.nodup, (hmain.1.sync root).mp hmain.2.1,
      ?_, hmain.1.bounded⟩
    intro c hc p hp
    exact (hmain.1.sync p).mp (hmain.1.closed c ((hmain.1.sync c).mpr hc) p hp)

theorem gather_ok_or_cycle (g : Graph) (root : Nat)
    (hroot : root < g.nodes.length) :
    (∃ s, gather_expression_nodes g root = .ok s) ∨
      gather_expression_nodes g root = .error .cycle := by
  unfold gather_expression_nodes
  cases hv : visit g (g.nodes.length + 1) root [] [] [] with
  | ok p =>
    obtain ⟨mk, st⟩ := p
    exact Or.inl ⟨st, rfl⟩
  | error e =>
    cases e with
    | cycle => exact Or.inr rfl
    | fuel =>
      exact absurd hv (visit_no_fuel g (g.nodes.length + 1) root [] [] []
        List.nodup_nil (by simp) hroot (by simp))

theorem gather_ok_no_cycle {g : Graph} {root : Nat} {s : List Nat}
    (h : gather_expression_nodes g root = .ok s)
    (hroot : root < g.nodes.length) : ¬ HasCycleFrom g root := by
  obtain ⟨ht, hnd, hroots, hclosed, _⟩ := gather_ok_props h hroot
  have hmem : ∀ w, Relation.ReflTransGen (Edge g) root w → w ∈ s := by
    intro w hw
    induction hw with
    | refl => exact hroots
    | tail _ h2 ih => exact hclosed _ ih _ h2
  rintro ⟨v, hrv, hcyc⟩
  exact topo_no_cycle ht hnd (hmem v hrv) hcyc

theorem gather_cycle_of_error {g : Graph} {root : Nat}
    (h : gather_expression_nodes g root = .error .cycle) :
    HasCycleFrom g root := by
  unfold gather_expression_nodes at h
  cases hv : visit g (g.nodes.length + 1) root [] [] [] with
  | ok p =>
    obtain ⟨mk, st⟩ := p
    rw [hv] at h
    exact absurd h (by simp)
  | error e =>
    rw [hv] at h
    have h' : (Except.error e : Except SortError (List Nat)) = .error .cycle := h
    have he : e = SortError.cycle := by injection h'
    subst he
    refine visit_cycle_hasCycle g root (g.nodes.length + 1) root [] [] [] hv
      List.Chain.nil ?_
    intro v hv'
    have : v = root := by simpa using hv'
    subst this
    exact Relation.ReflTransGen.refl

theorem gather_cycle_error {g : Graph} {root : Nat}
    (hroot : root < g.nodes.length) (hc : HasCycleFrom g root) :
    gather_expression_nodes g root = .error .cycle := by
  rcases gather_ok_or_cycle g root hroot with ⟨s, hs⟩ | he
  · exact absurd hc (gather_ok_no_cycle hs hroot)
  · exact he

/-! ## Acyclicity via a rank function (used by witnesses) -/

theorem no_cycle_of_rank (g : Graph) (rank : Nat → Nat)
    (h : ∀ a b, Edge g a b → rank b < rank a) (root : Nat) :
    ¬ HasCycleFrom g root := by
  rintro ⟨v, _, hcyc⟩
  have hlt : ∀ a b, Relation.TransGen (Edge g) a b → rank b < rank a := by
    intro a b htg
    induction htg with
    | single hab => exact h _ _ hab
    | tail _ h2 ih => exact Nat.lt_trans (h _ _ h2) ih
  exact absurd (hlt v v hcyc) (lt_irrefl _)

/-! ## Claim C1 -/

/-- C1 (the claim is the evident intent; the code crashes first): the
cycle detector itself behaves as claimed — for every cycle among the
expression nodes reachable from an in-range anchor,
`gather_expression_nodes` raises the cycle exception, and the anchor
loop body surfaces it before any scope assignment or node build, so
nothing is emitted for that anchor.  But the real `build_drivers` never
gets there: it raises `TypeError` inside `setup_armature`
(gear_nodes.py:171) on every input whatsoever, so the claimed
`GraphCycleError` outcome of `build_drivers` is unreachable — at the
cyclic failing input the run yields the `TypeError`, not the cycle
exception. -/
theorem claim_C1_cycle_error_unreachable :
    (∀ (g : Graph) (root : Nat), root < g.nodes.length →
      HasCycleFrom g root →
      gather_expression_nodes g root = .error .cycle ∧
        compile_anchor g root = .error .cycle) ∧
    (∀ g : Graph, build_drivers g = .error .type_error) ∧
    build_drivers exGraphCycle ≠ .error .cycle := by
  refine ⟨?_, fun g => rfl, by decide⟩
  intro g root hroot hc
  have h := gather_cycle_error hroot hc
  constructor
  · exact h
  · unfold compile_anchor
    rw [h]

/-- Witness for C1 on the concrete cyclic graph `exGraphCycle`
(expression nodes 1 and 2 consume each other, reachable from gear
anchor 0). -/
theorem claim_C1_cycle_error_unreachable_witness :
    0 < exGraphCycle.nodes.length ∧ HasCycleFrom exGraphCycle 0 ∧
      gather_expression_nodes exGraphCycle 0 = .error .cycle ∧
      compile_anchor exGraphCycle 0 = .error .cycle := by
  have h21 : Relation.TransGen (Edge exGraphCycle) 2 1 :=
    Relation.TransGen.single (by decide)
  have hc : HasCycleFrom exGraphCycle 0 :=
    ⟨1, Relation.ReflTransGen.single (by decide),
      Relation.TransGen.head (by decide) h21⟩
  have h := claim_C1_cycle_error_unreachable.1 exGraphCycle 0 (by decide) hc
  exact ⟨by decide, hc, h.1, h.2⟩

/-! ## Claim C2 -/

/-- C2: for every GearNode anchor whose reachable expression subgraph is
acyclic, the compile pass terminates with a sorted list (the embedding is
total, and the fuel outcome is excluded for any in-range anchor), and the
topological sort produced by `gather_expression_nodes` places the
producer of every declared link at a strictly smaller index than its
consumer, for every declared link of every sorted node (links with
`ExpressionNode` producers — the data-model invariant `LinksWF`). -/
theorem claim_C2_topological_order (g : Graph) (root : Nat)
    (hroot : root < g.nodes.length) (hwf : LinksWF g)
    (hacyc : ¬ HasCycleFrom g root) :
    ∃ s, gather_expression_nodes g root = .ok s ∧
      ∀ i, (hi : i < s.length) → ∀ l ∈ nodeLinks g s[i],
        ∃ j, ∃ hj : j < i, s[j] = l.2.1 := by
  rcases gather_ok_or_cycle g root hroot with ⟨s, hs⟩ | he
  · refine ⟨s, hs, ?_⟩
    obtain ⟨ht, _, _, _, hbnd⟩ := gather_ok_props hs hroot
    intro i hi l hl
    have hc : s[i] ∈ s := List.getElem_mem hi
    have hlt : s[i] < g.nodes.length := hbnd _ hc
    have hsrc : l.2.1 ∈ exprSrcs g s[i] :=
      exprSrcs_of_links hl (hwf s[i] hlt l hl)
    exact ht i hi l.2.1 hsrc
  · exact absurd (gather_cycle_of_error he) hacyc

/-- Witness for C2 on the concrete acyclic graph `exGraphChain`. -/
theorem claim_C2_topological_order_witness :
    0 < exGraphChain.nodes.length ∧ LinksWF exGraphChain ∧
      ¬ HasCycleFrom exGraphChain 0 ∧
      (∃ s, gather_expression_nodes exGraphChain 0 = .ok s ∧
        ∀ i, (hi : i < s.length) → ∀ l ∈ nodeLinks exGraphChain s[i],
          ∃ j, ∃ hj : j < i, s[j] = l.2.1) := by
  have hdec : ∀ a, a < 2 → ∀ b, b < 2 →
      (Edge exGraphChain a b → 2 - b < 2 - a) := by decide
  have hacyc : ¬ HasCycleFrom exGraphChain 0 := by
    refine no_cycle_of_rank exGraphChain (fun i => 2 - i) ?_ 0
    intro a b hab
    have hb : b < 2 := mem_exprSrcs_lt hab
    have ha : a < 2 := by
      by_contra hge
      rw [Edge, exprSrcs_oob (by simpa using not_lt.mp hge)] at hab
      exact absurd hab (by simp)
    exact hdec a ha b hb hab
  exact ⟨by decide, by decide, hacyc,
    claim_C2_topological_order exGraphChain 0 (by decide) (by decide) hacyc⟩

/-! ## Claim C3 -/

/-- C3: the driver builder's scope loop (`gear_drivers.py` lines 367-369)
numbers the nodes of the whole run globally — one
`for i, node in enumerate(nodes): node.scope = "Node{index}_".format(index=i)`
over the full node list — so the assigned scope strings are pairwise
distinct across the entire run: `assign_scopes` produces one scoped entry
per node, and any two entries at distinct positions carry distinct scope
strings (by injectivity of the decimal rendering of the index). -/
theorem claim_C3_scope_uniqueness (nodes : List GraphNode) :
    (assign_scopes nodes).length = nodes.length ∧
    ((assign_scopes nodes).map Prod.snd).Nodup ∧
    (∀ i j, (hi : i < (assign_scopes nodes).length) →
      (hj : j < (assign_scopes nodes).length) → i ≠ j →
      ((assign_scopes nodes).get ⟨i, hi⟩).2 ≠
        ((assign_scopes nodes).get ⟨j, hj⟩).2) := by
  have hget : ∀ i, (hi : i < (assign_scopes nodes).length) →
      ((assign_scopes nodes).get ⟨i, hi⟩).2 = node_scope i := by
    intro i hi
    have hi' : i < nodes.enum.length := by
      simpa [assign_scopes] using hi
    simp [assign_scopes, List.getElem_enum]
  refine ⟨by simp [assign_scopes], ?_, ?_⟩
  · have h2 : (assign_scopes nodes).map Prod.snd =
        (nodes.enum.map Prod.fst).map node_scope := by
      simp only [assign_scopes, List.map_map]
      rfl
    rw [h2, List.enum_map_fst]
    exact (List.nodup_range _).map node_scope_injective
  · intro i j hi hj hij
    rw [hget i hi, hget j hj]
    exact fun hc => hij (node_scope_injective hc)

/-- Witness for C3: in the four-node run `exGraphTwoAnchors` the entries
at positions 1 and 3 (expression nodes compiled under different anchors,
both targeting entity `"B"`) still receive distinct scopes. -/
theorem claim_C3_scope_uniqueness_witness :
    ((assign_scopes exGraphTwoAnchors.nodes).get ⟨1, by decide⟩).2 ≠
      ((assign_scopes exGraphTwoAnchors.nodes).get ⟨3, by decide⟩).2 :=
  (claim_C3_scope_uniqueness exGraphTwoAnchors.nodes).2.2 1 3
    (by decide) (by decide) (by decide)

/-! ## Claim C4 -/

/-- C4 counterexample: a TransmissionNode with `input_teeth = -40 ≤ 0` and
`output_teeth = 20` does not raise any `InvalidMechanismError` (no such
error and no teeth check exist in the source): the build dies with the
unconditional `TypeError` at its first keyword-binding `make_driver` call
(`node_value.py`'s `make_driver` accepts only
`(expression, variables, use_self)`). -/
theorem claim_C4_no_invalid_mechanism_counterexample :
    (-40 : ℤ) ≤ 0 ∧
    transmission_build_drivers (-40) 20 = .error .type_error ∧
    TransmissionError.type_error ≠ TransmissionError.invalid_mechanism := by
  refine ⟨by decide, ?_, by decide⟩
  unfold transmission_build_drivers
  rw [if_neg (by decide)]

/-- C4 (amended): `TransmissionNode.build_drivers` performs no validation
of the teeth counts.  It fails with Python's `ZeroDivisionError` at
`ratio = input_teeth / output_teeth` iff `output_teeth = 0`; for every
other pair of teeth counts, regardless of sign, it instead dies with the
unconditional `TypeError` of the broken `make_driver` call interface.  No
`InvalidMechanismError` is ever raised, and the build never succeeds. -/
theorem claim_C4_teeth_no_validation (input_teeth output_teeth : ℤ) :
    (transmission_build_drivers input_teeth output_teeth =
        .error .zero_division ↔ output_teeth = 0) ∧
    (output_teeth ≠ 0 →
      transmission_build_drivers input_teeth output_teeth =
        .error .type_error) ∧
    (∀ e, transmission_build_drivers input_teeth output_teeth = .error e →
      e ≠ .invalid_mechanism) ∧
    (∀ u : Unit,
      transmission_build_drivers input_teeth output_teeth ≠ .ok u) := by
  unfold transmission_build_drivers
  by_cases h : output_teeth = 0
  · rw [if_pos h]
    refine ⟨by simp [h], fun hn => absurd h hn, ?_, by simp⟩
    intro e he
    injection he with h2
    rw [← h2]
    decide
  · rw [if_neg h]
    refine ⟨by simp [h], fun _ => rfl, ?_, by simp⟩
    intro e he
    injection he with h2
    rw [← h2]
    decide

/-- Witness for the amended C4 at `input_teeth = 40`, `output_teeth = 20`. -/
theorem claim_C4_teeth_no_validation_witness :
    (20 : ℤ) ≠ 0 ∧
    transmission_build_drivers 40 20 = .error .type_error :=
  ⟨by decide, (claim_C4_teeth_no_validation 40 20).2.1 (by decide)⟩

/-! ## Claim C5 -/

/-- C5 counterexample: with positive teeth counts `input_teeth = 40 > 0`
and `output_teeth = 20 > 0`, TransmissionNode.build_drivers does not emit
the claimed rotation/tooth-offset rule pair at all: right after computing
`ratio = input_teeth / output_teeth` the run dies with the unconditional
`TypeError` at the first keyword-binding `make_driver` call
(`node_value.py`'s `make_driver` accepts only
`(expression, variables, use_self)`), so no rule is created and nothing
ever evaluates to `2π`. -/
theorem claim_C5_rules_never_emitted_counterexample :
    (0 : ℤ) < 40 ∧ (0 : ℤ) < 20 ∧
    transmission_build_drivers 40 20 = .error .type_error := by
  refine ⟨by decide, by decide, ?_⟩
  unfold transmission_build_drivers
  rw [if_neg (by decide)]

/-- C5 (amended): for every pair of positive teeth counts the
transmission build never reaches its rule emissions: after the ratio
division succeeds (`output_teeth ≠ 0`), the build raises `TypeError` at
its first `make_driver` call, so neither the conditional rotation rule
nor the tooth-offset rule is emitted and no driver of this node can
evaluate to `2π`. -/
theorem claim_C5_transmission_never_emits (input_teeth output_teeth : ℤ)
    (hti : 0 < input_teeth) (hto : 0 < output_teeth) :
    transmission_build_drivers input_teeth output_teeth =
      .error .type_error ∧
    ∀ u : Unit,
      transmission_build_drivers input_teeth output_teeth ≠ .ok u := by
  unfold transmission_build_drivers
  rw [if_neg (by omega)]
  exact ⟨rfl, by simp⟩

/-- Witness for the amended C5 at `input_teeth = 8`, `output_teeth = 12`. -/
theorem claim_C5_transmission_never_emits_witness :
    transmission_build_drivers 8 12 = .error .type_error ∧
    ∀ u : Unit, transmission_build_drivers 8 12 ≠ .ok u :=
  claim_C5_transmission_never_emits 8 12 (by decide) (by decide)
/-! ## Claim C6 -/

/-- C6: the frame-delta rule evaluates to `current_frame` minus the
previously committed `frame_prev` (read via self-access, `use_self` set);
the `frame_prev` rule commits the current frame while declaring a `delta`
variable binding its expression never uses, which makes the
dependency-ordered host evaluator compute the delta before `frame_prev`
commits.  With `current_frame = 10` and stored `frame_prev = 7` the delta
evaluates to `3`; a repeated evaluation at frame `10` yields `0`. -/
theorem claim_C6_frame_timing :
    frame_prev_deps = ["delta"] ∧
    frame_delta_use_self = true ∧
    (∀ frame d d' : ℚ, frame_prev_expr frame d = frame_prev_expr frame d') ∧
    (∀ (s : FrameState) (frame : ℚ),
      host_eval_frame s frame = ⟨frame, frame - s.frame_prev⟩) ∧
    host_eval_frame ⟨7, 0⟩ 10 = ⟨10, 3⟩ ∧
    host_eval_frame (host_eval_frame ⟨7, 0⟩ 10) 10 = ⟨10, 0⟩ := by
  have hstep : ∀ (s : FrameState) (frame : ℚ),
      host_eval_frame s frame = ⟨frame, frame - s.frame_prev⟩ := by
    intro s frame
    unfold host_eval_frame
    rw [if_pos (by decide : "delta" ∈ frame_prev_deps)]
    rfl
  refine ⟨rfl, rfl, fun _ _ _ => rfl, hstep, ?_, ?_⟩
  · rw [hstep]
    norm_num [FrameState.mk.injEq]
  · rw [hstep, hstep]
    norm_num [FrameState.mk.injEq]

/-! ## Claim C7 -/

/-- C7: `make_idprop_driver` raises `ExpressionTooLongError` (the failed
length assertion) iff the constructed expression exceeds the backend
capability constant `max_expr_len`, and every driver actually emitted
carries an expression of length at most `max_expr_len`. -/
theorem claim_C7_expression_length (max_expr_len : Nat)
    (propname expression : String) (driver_variables : List String)
    (use_self : Bool) :
    (make_idprop_driver max_expr_len propname expression driver_variables
        use_self = .error .expression_too_long ↔
      max_expr_len < expression.length) ∧
    ∀ d, make_idprop_driver max_expr_len propname expression
        driver_variables use_self = .ok d →
      d.expression.length ≤ max_expr_len ∧ d.expression = expression := by
  unfold make_idprop_driver
  constructor
  · by_cases h : expression.length ≤ max_expr_len
    · rw [if_pos h]
      simp
      omega
    · rw [if_neg h]
      simp
      omega
  · intro d hd
    by_cases h : expression.length ≤ max_expr_len
    · rw [if_pos h] at hd
      have hdd : (⟨propname, expression, driver_variables, use_self⟩ :
          DriverHandle) = d := by
        injection hd
      rw [← hdd]
      exact ⟨h, rfl⟩
    · rw [if_neg h] at hd
      exact absurd hd (by simp)

/-- Witness for C7: a three-character expression against a budget of two
is rejected; a two-character expression is emitted within the budget. -/
theorem claim_C7_expression_length_witness :
    make_idprop_driver 2 "p" "abc" [] false = .error .expression_too_long ∧
    2 < "abc".length ∧
    (DriverHandle.mk "p" "ab" [] false).expression.length ≤ 2 ∧
    (DriverHandle.mk "p" "ab" [] false).expression = "ab" := by
  have h1 := (claim_C7_expression_length 2 "p" "abc" [] false).1
  have h2 := (claim_C7_expression_length 2 "p" "ab" [] false).2
    ⟨"p", "ab", [], false⟩ (by decide)
  exact ⟨h1.mpr (by decide), by decide, h2.1, h2.2⟩

/-! ## Claim C8 -/

/-- C8 counterexample: the rotation rule the run actually emits is the
working `ConstRotationNode` one (`gear_drivers.py` lines 161-182).  Its
`{curval}` is not the driven rotation property's own previous committed
value but the bone's previous committed euler rotation — `TargetNode`
installs `current_value_expr = "self.rotation_euler.<axis>"` and the
formatted expression reads exactly that.  With the bone euler previously
at `5`, `speed = 1` and `frame_delta = 1` the rule yields `6`; the
claimed own-previous-value formula with the rotation property previously
at `3` would yield `3 + 1·1 = 4 ≠ 6`. -/
theorem claim_C8_bone_euler_counterexample :
    gd_const_rotation_build 255 "Node0_" "self.rotation_euler.x" =
      .ok ⟨"Node0_rotation", "self.rotation_euler.x+speed*dt",
        ["speed", "dt"], true⟩ ∧
    gd_const_rotation_value 5 1 1 = 6 ∧
    (6 : ℚ) ≠ 3 + 1 * 1 := by
  refine ⟨by decide, by norm_num [gd_const_rotation_value], by norm_num⟩

/-- C8 (amended): the emitted const-rotation rule is unconditional — one
driver on the scoped `rotation` id-property with expression
`current_value_expr + "+speed*dt"`, `use_self` set, and exactly `speed`
and `dt` as declared variables; the driven property itself is never among
the declared variables (so no cyclic dependency is declared), and the
expression's base value is the bone's previous committed euler rotation
(the `current_value_expr` literal), to which `speed·frame_delta` is
added. -/
theorem claim_C8_unconditional_rule (max_expr_len : Nat)
    (scope current_value_expr : String)
    (h : (current_value_expr ++ "+speed*dt").length ≤ max_expr_len) :
    gd_const_rotation_build max_expr_len scope current_value_expr =
      .ok ⟨scope ++ "rotation", current_value_expr ++ "+speed*dt",
        ["speed", "dt"], true⟩ ∧
    (scope ++ "rotation") ∉ (["speed", "dt"] : List String) ∧
    (∀ b s d : ℚ, gd_const_rotation_value b s d = b + s * d) := by
  refine ⟨?_, ?_, fun _ _ _ => rfl⟩
  · unfold gd_const_rotation_build make_idprop_driver
    rw [if_pos h]
  · intro hmem
    have h8 : (scope ++ "rotation").length = scope.length + 8 := by
      rw [String.length_append]
      rfl
    simp only [List.mem_cons, List.not_mem_nil, or_false] at hmem
    rcases hmem with heq | heq
    · have hl := congrArg String.length heq
      rw [h8, show ("speed").length = 5 from rfl] at hl
      omega
    · have hl := congrArg String.length heq
      rw [h8, show ("dt").length = 2 from rfl] at hl
      omega

/-- Witness for the amended C8 at scope `"Node1_"` on the `y` axis. -/
theorem claim_C8_unconditional_rule_witness :
    ("self.rotation_euler.y+speed*dt").length ≤ 255 ∧
    gd_const_rotation_build 255 "Node1_" "self.rotation_euler.y" =
      .ok ⟨"Node1_rotation", "self.rotation_euler.y+speed*dt",
        ["speed", "dt"], true⟩ ∧
    gd_const_rotation_value 7 2 3 = 7 + 2 * 3 := by
  have h := claim_C8_unconditional_rule 255 "Node1_" "self.rotation_euler.y"
    (by decide)
  exact ⟨by decide, h.1, h.2.2 7 2 3⟩

/-! ## Claim C9 -/

theorem ite_eq_one_iff (c : Prop) [Decidable c] :
    ((if c then (1 : ℚ) else 0) = 1) ↔ c := by
  by_cases h : c
  · simp [h]
  · simp [h]

/-- C9: `RangeConditionNode.build_drivers` computes the revolution
fractions and picks the `and` template iff `start ≤ stop` (`use_or`
otherwise), exactly as claimed — but the run then dies with the
unconditional `TypeError` at `condition.make_driver(...)` (the keyword
bindings do not match `node_value.py`'s
`make_driver(expression, variables, use_self)` signature), so the
condition driver is never created and the template is never formatted.
Denotationally (spec-modelled placeholder resolution): the expression
would yield `1.0` exactly when the normalized input fraction lies in
`[start, stop)` for the `and` template, and exactly when it satisfies the
wrap-around disjunction for the `or` template; with
`start_angle = 3π/2` and `stop_angle = π/2` the built rule is
`⟨3/4, 1/4, 1/(2π), or⟩`, and the condition is `1.0` at angle `0` and at
`7π/4`, and `0.0` at `π`. -/
theorem claim_C9_range_condition :
    (∀ piv sa sb : ℚ,
      range_condition_node_build_drivers piv sa sb = .error .type_error) ∧
    (∀ piv sa sb : ℚ, ((range_condition_build piv sa sb).use_or = false ↔
      (range_condition_build piv sa sb).start ≤
        (range_condition_build piv sa sb).stop)) ∧
    (∀ (r : RangeRule) (input : ℚ),
      (r.use_or = false →
        (range_condition_expr r input = 1 ↔
          r.start ≤ input * r.C - ⌊input * r.C⌋ ∧
            input * r.C - ⌊input * r.C⌋ < r.stop)) ∧
      (r.use_or = true →
        (range_condition_expr r input = 1 ↔
          r.start ≤ input * r.C - ⌊input * r.C⌋ ∨
            input * r.C - ⌊input * r.C⌋ < r.stop))) ∧
    (∀ piv : ℚ, 0 < piv →
      range_condition_build piv (3 * piv / 2) (piv / 2) =
        ⟨3/4, 1/4, 1/(2*piv), true⟩ ∧
      range_condition_expr (range_condition_build piv (3 * piv / 2) (piv / 2))
        0 = 1 ∧
      range_condition_expr (range_condition_build piv (3 * piv / 2) (piv / 2))
        (7 * piv / 4) = 1 ∧
      range_condition_expr (range_condition_build piv (3 * piv / 2) (piv / 2))
        piv = 0) := by
  refine ⟨fun _ _ _ => rfl, ?_, ?_, ?_⟩
  · intro piv sa sb
    simp only [range_condition_build]
    by_cases hss : sa * (1 / (2 * piv)) - ⌊sa * (1 / (2 * piv))⌋ ≤
        sb * (1 / (2 * piv)) - ⌊sb * (1 / (2 * piv))⌋
    · rw [if_pos hss]
      simpa using hss
    · rw [if_neg hss]
      simpa using hss
  · intro r input
    constructor
    · intro h
      simp only [range_condition_expr, h]
      simp only [Bool.false_eq_true, if_false]
      exact ite_eq_one_iff _
    · intro h
      simp only [range_condition_expr, h, if_true]
      exact ite_eq_one_iff _
  · intro piv hpiv
    have hne : piv ≠ 0 := ne_of_gt hpiv
    have hC1 : 3 * piv / 2 * (1 / (2 * piv)) = 3 / 4 := by
      field_simp
      ring
    have hC2 : piv / 2 * (1 / (2 * piv)) = 1 / 4 := by
      field_simp
      ring
    have hr : range_condition_build piv (3 * piv / 2) (piv / 2) =
        ⟨3/4, 1/4, 1/(2*piv), true⟩ := by
      simp only [range_condition_build, hC1, hC2]
      norm_num [RangeRule.mk.injEq]
    refine ⟨hr, ?_, ?_, ?_⟩
    · rw [hr]
      simp only [range_condition_expr]
      norm_num
    · rw [hr]
      simp only [range_condition_expr]
      have h78 : 7 * piv / 4 * (1 / (2 * piv)) = 7 / 8 := by
        field_simp
        ring
      rw [h78]
      norm_num
    · rw [hr]
      simp only [range_condition_expr]
      have h12 : piv * (1 / (2 * piv)) = 1 / 2 := by
        field_simp
        ring
      rw [h12]
      norm_num

/-- Witness for C9 with the symbolic pi value instantiated at `1`. -/
theorem claim_C9_range_condition_witness :
    (0 : ℚ) < 1 ∧
    range_condition_node_build_drivers 1 (3 * 1 / 2) (1 / 2) =
      .error .type_error ∧
    range_condition_expr (range_condition_build 1 (3 * 1 / 2) (1 / 2)) 0 = 1 ∧
    range_condition_expr (range_condition_build 1 (3 * 1 / 2) (1 / 2))
      (7 * 1 / 4) = 1 ∧
    range_condition_expr (range_condition_build 1 (3 * 1 / 2) (1 / 2)) 1 = 0 := by
  have h := claim_C9_range_condition.2.2.2 1 (by norm_num)
  exact ⟨by norm_num, claim_C9_range_condition.1 1 (3 * 1 / 2) (1 / 2),
    h.2.1, h.2.2.1, h.2.2.2⟩

/-! ## Claim C10 -/

/-- C10: if the property already exists on the target when `add_idprop`
runs, the stored value is left unchanged — the whole property mapping is
untouched and only the `_RNA_UI` metadata row (default, min, max) is
rewritten — so re-creating a scalar without clearing the namespace first
preserves a user-tuned value. -/
theorem claim_C10_add_idprop_preserves (t : PropTarget) (prop : String)
    (value mn mx v : ℚ) (h : t.props (idprop_uuid t prop) = some v) :
    (add_idprop t prop value mn mx).props = t.props ∧
    (add_idprop t prop value mn mx).props (idprop_uuid t prop) = some v ∧
    (add_idprop t prop value mn mx).rna_ui (idprop_uuid t prop) =
      some ⟨value, mn, mx⟩ := by
  unfold add_idprop
  refine ⟨?_, ?_, ?_⟩
  · simp only [h]
  · simp only [h]
  · simp

/-- Witness for C10: the stored `speed` value `5` survives a re-creation
with default `0` and bounds `[0, 1]`. -/
theorem claim_C10_add_idprop_preserves_witness :
    exTarget.props (idprop_uuid exTarget "Node0_speed") = some 5 ∧
    (add_idprop exTarget "Node0_speed" 0 0 1).props = exTarget.props ∧
    (add_idprop exTarget "Node0_speed" 0 0 1).props
      (idprop_uuid exTarget "Node0_speed") = some 5 ∧
    (add_idprop exTarget "Node0_speed" 0 0 1).rna_ui
      (idprop_uuid exTarget "Node0_speed") = some ⟨0, 0, 1⟩ := by
  have h : exTarget.props (idprop_uuid exTarget "Node0_speed") = some 5 := by
    rfl
  have hmain := claim_C10_add_idprop_preserves exTarget "Node0_speed" 0 0 1 5 h
  exact ⟨h, hmain.1, hmain.2.1, hmain.2.2⟩
